import Mathlib

set_option allowUnsafeReducibility true
attribute [semireducible] Rat.mul Rat.add Rat.sub Rat.inv Rat.div Rat.ofScientific

/-!
Shallow embedding of the grid trading engine of `src/app.py` (class `GridBot`,
lines 276-451).  Python floats are modelled as rationals (`ℚ`); Python's
`round(x, 2)` (round-half-to-even on two decimal places) is modelled exactly by
`round2`.  Timestamps (`datetime.now()`) are nondeterministic I/O and are the
only fields omitted from the records.  Mutation of the bot object is modelled
by explicit state passing: every method returns the updated bot together with
its Python return value.
-/

/-- Round-half-to-even to an integer, as Python's `round` does. -/
def roundHalfEven (x : ℚ) : ℤ :=
  if x - ⌊x⌋ < 1/2 then ⌊x⌋
  else if 1/2 < x - ⌊x⌋ then ⌊x⌋ + 1
  else if ⌊x⌋ % 2 = 0 then ⌊x⌋ else ⌊x⌋ + 1

/-- Python's `round(x, 2)`: round-half-to-even at two decimal places. -/
def round2 (x : ℚ) : ℚ := (roundHalfEven (x * 100) : ℚ) / 100

/-- Order / trade side, the `'type'` field of the Python dicts. -/
inductive Side where
  | buy
  | sell
deriving DecidableEq, Repr

/-- An entry of `self.orders` (`app.py` lines 360-370 and 407-418).  BUY
orders carry `sold`; SELL orders additionally carry `profit` and
`buy_order_id` (in Python those keys are absent on the other side; here they
default to `false` / `0` / `none`, matching `order.get('sold')` falsiness). -/
structure Order where
  id : ℕ
  type : Side
  price : ℚ
  grid_level : ℚ
  amount_usd : ℚ
  amount_crypto : ℚ
  fee : ℚ
  sold : Bool := false
  profit : ℚ := 0
  buy_order_id : Option ℕ := none
deriving DecidableEq, Repr

/-- An entry of `self.trades`, the value returned by `_execute_buy` /
`_execute_sell` (`app.py` lines 374-381 and 422-430). -/
structure Trade where
  type : Side
  price : ℚ
  amount : ℚ
  value : ℚ
  fee : ℚ
  profit : Option ℚ := none
deriving DecidableEq, Repr

/-- The state of one `GridBot` instance (`app.py` lines 277-293). -/
structure GridBot where
  bot_id : String
  symbol : String
  lower_price : ℚ
  upper_price : ℚ
  grids : ℕ
  investment : ℚ
  mode : String
  active : Bool
  grid_levels : List ℚ
  amount_per_grid : ℚ
  orders : List Order
  trades : List Trade
  profit : ℚ
deriving DecidableEq, Repr

/-- `calculate_grids` (`app.py` lines 295-305): the levels it stores in
`self.grid_levels`. -/
def calculate_grids (lower_price upper_price : ℚ) (grids : ℕ) : List ℚ :=
  let price_range := upper_price - lower_price
  let grid_spacing := price_range / grids
  (List.range (grids + 1)).map (fun i : ℕ => round2 (lower_price + (i : ℚ) * grid_spacing))

/-- `GridBot.__init__` (`app.py` lines 277-293), including the
`calculate_grids` call. -/
def GridBot.init (bot_id symbol : String) (lower_price upper_price : ℚ)
    (grids : ℕ) (investment : ℚ) (mode : String) : GridBot :=
  { bot_id := bot_id
    symbol := symbol
    lower_price := lower_price
    upper_price := upper_price
    grids := grids
    investment := investment
    mode := mode
    active := false
    grid_levels := calculate_grids lower_price upper_price grids
    amount_per_grid := investment / grids
    orders := []
    trades := []
    profit := 0 }

/-- `GridBot.start` (`app.py` lines 307-310); the second component is the
returned `{'status': ..., 'bot_id': ...}` dict. -/
def GridBot.start (b : GridBot) : GridBot × String × String :=
  ({ b with active := true }, "started", b.bot_id)

/-- `GridBot.stop` (`app.py` lines 312-315). -/
def GridBot.stop (b : GridBot) : GridBot × String × String :=
  ({ b with active := false }, "stopped", b.bot_id)

/-- The tolerance computed inside `_has_buy_at_level` (`app.py` line 341). -/
def GridBot.tolerance (b : GridBot) : ℚ :=
  (b.upper_price - b.lower_price) / b.grids / 2

/-- `_has_buy_at_level` (`app.py` lines 339-345).  Note it scans every order,
sold or not. -/
def GridBot.has_buy_at_level (b : GridBot) (level : ℚ) : Bool :=
  b.orders.any fun o => decide (o.type = Side.buy ∧ |o.price - level| < b.tolerance)

/-- `_has_holding_below` (`app.py` lines 347-352). -/
def GridBot.has_holding_below (b : GridBot) (level : ℚ) : Bool :=
  b.orders.any fun o => decide (o.type = Side.buy ∧ o.price < level ∧ o.sold = false)

/-- The BUY order dict built by `_execute_buy` (`app.py` lines 360-370). -/
def mkBuyOrder (b : GridBot) (level actual_price : ℚ) : Order :=
  { id := b.orders.length + 1
    type := Side.buy
    price := actual_price
    grid_level := level
    amount_usd := b.amount_per_grid
    amount_crypto := b.amount_per_grid / actual_price
    fee := b.amount_per_grid * (1/1000)
    sold := false }

/-- The BUY trade dict built by `_execute_buy` (`app.py` lines 374-381). -/
def mkBuyTrade (b : GridBot) (actual_price : ℚ) : Trade :=
  { type := Side.buy
    price := actual_price
    amount := b.amount_per_grid / actual_price
    value := b.amount_per_grid
    fee := b.amount_per_grid * (1/1000) }

/-- `_execute_buy` (`app.py` lines 354-384): appends the order and the trade
and returns the trade (a nonempty dict, hence always truthy for the caller's
`if trade:`). -/
def GridBot.execute_buy (b : GridBot) (level actual_price : ℚ) : GridBot × Trade :=
  ({ b with
      orders := b.orders ++ [mkBuyOrder b level actual_price]
      trades := b.trades ++ [mkBuyTrade b actual_price] },
   mkBuyTrade b actual_price)

/-- The scan of `_execute_sell` (`app.py` lines 389-393): walk the orders in
insertion order, keeping the unsold BUY strictly below `level` with the
lowest price (strict `<`, so the earliest one wins ties), together with its
position in the list. -/
def findBuyAux (level : ℚ) : Option (ℕ × Order) → ℕ → List Order → Option (ℕ × Order)
  | acc, _, [] => acc
  | acc, i, o :: rest =>
      let acc' :=
        if o.type = Side.buy ∧ o.price < level ∧ o.sold = false then
          match acc with
          | none => some (i, o)
          | some p => if o.price < p.2.price then some (i, o) else acc
        else acc
      findBuyAux level acc' (i + 1) rest

/-- The `buy_order` selected by `_execute_sell`'s loop, with its index. -/
def findBuyOrder (orders : List Order) (level : ℚ) : Option (ℕ × Order) :=
  findBuyAux level none 0 orders

/-- The realized profit computed by `_execute_sell` (`app.py` line 404):
`amount_usd - buy_order['amount_usd'] - fee - buy_order['fee']` with
`amount_usd = amount_crypto * actual_price` and `fee = amount_usd * 0.001`. -/
def sellProfit (buy_order : Order) (actual_price : ℚ) : ℚ :=
  buy_order.amount_crypto * actual_price - buy_order.amount_usd
    - buy_order.amount_crypto * actual_price * (1/1000) - buy_order.fee

/-- The SELL order dict built by `_execute_sell` (`app.py` lines 407-418). -/
def mkSellOrder (id : ℕ) (buy_order : Order) (level actual_price : ℚ) : Order :=
  { id := id
    type := Side.sell
    price := actual_price
    grid_level := level
    amount_usd := buy_order.amount_crypto * actual_price
    amount_crypto := buy_order.amount_crypto
    fee := buy_order.amount_crypto * actual_price * (1/1000)
    sold := false
    profit := sellProfit buy_order actual_price
    buy_order_id := some buy_order.id }

/-- The SELL trade dict built by `_execute_sell` (`app.py` lines 422-430). -/
def mkSellTrade (buy_order : Order) (actual_price : ℚ) : Trade :=
  { type := Side.sell
    price := actual_price
    amount := buy_order.amount_crypto
    value := buy_order.amount_crypto * actual_price
    fee := buy_order.amount_crypto * actual_price * (1/1000)
    profit := some (sellProfit buy_order actual_price) }

/-- `_execute_sell` (`app.py` lines 386-433): find the cheapest unsold BUY
strictly below `level`; if none return `None`, otherwise mark it sold
(in-place mutation, modelled by `List.set` at its index), append the SELL
order and trade, add the profit and return the trade. -/
def GridBot.execute_sell (b : GridBot) (level actual_price : ℚ) : GridBot × Option Trade :=
  match findBuyOrder b.orders level with
  | none => (b, none)
  | some (i, buy_order) =>
      let orders1 := b.orders.set i { buy_order with sold := true }
      ({ b with
          orders := orders1 ++ [mkSellOrder (orders1.length + 1) buy_order level actual_price]
          trades := b.trades ++ [mkSellTrade buy_order actual_price]
          profit := b.profit + sellProfit buy_order actual_price },
       some (mkSellTrade buy_order actual_price))

/-- One iteration of the level loop of `check_and_execute` (`app.py` lines
324-335): buy if `current_price <= level` and the level is unoccupied, `elif`
sell if `current_price >= level` and an unsold BUY sits below; the sell's
trade is appended only when `_execute_sell` returned one. -/
def tickStep (current_price : ℚ) (acc : GridBot × List Trade) (level : ℚ) :
    GridBot × List Trade :=
  if current_price ≤ level ∧ acc.1.has_buy_at_level level = false then
    ((acc.1.execute_buy level current_price).1,
      acc.2 ++ [(acc.1.execute_buy level current_price).2])
  else if level ≤ current_price ∧ acc.1.has_holding_below level = true then
    ((acc.1.execute_sell level current_price).1,
      match (acc.1.execute_sell level current_price).2 with
      | some t => acc.2 ++ [t]
      | none => acc.2)
  else acc

/-- `check_and_execute` (`app.py` lines 317-337): `None` when the bot is
inactive (the Python `return None`, distinct from an empty list), otherwise
the list of trades executed while scanning `self.grid_levels` in order. -/
def GridBot.check_and_execute (b : GridBot) (current_price : ℚ) :
    GridBot × Option (List Trade) :=
  if b.active = false then (b, none)
  else
    ((b.grid_levels.foldl (tickStep current_price) (b, [])).1,
     some (b.grid_levels.foldl (tickStep current_price) (b, [])).2)

/-- A sequence of price ticks fed to `check_and_execute`, keeping the bot
state (the external scheduler's loop). -/
def runTicks (b : GridBot) (prices : List ℚ) : GridBot :=
  prices.foldl (fun bot p => (bot.check_and_execute p).1) b

/-- The predicate `_execute_sell`'s scan filters on: an unsold BUY strictly
below `level`. -/
def isOpenBuyBelow (level : ℚ) (o : Order) : Prop :=
  o.type = Side.buy ∧ o.price < level ∧ o.sold = false

instance (level : ℚ) (o : Order) : Decidable (isOpenBuyBelow level o) := by
  unfold isOpenBuyBelow; infer_instance

/-- The guard invariant actually maintained by the engine: every BUY order's
execution price is at distance at least `tol` from the nominal grid level of
every BUY order created after it. -/
def noRebuy (tol : ℚ) (orders : List Order) : Prop :=
  ∀ (i j : ℕ) (oi oj : Order), i < j → orders[i]? = some oi → orders[j]? = some oj →
    oi.type = Side.buy → oj.type = Side.buy → tol ≤ |oi.price - oj.grid_level|

/-- A BUY order created for nominal level `L`. -/
def buyAtLevel (L : ℚ) : Order → Bool :=
  fun o => decide (o.type = Side.buy ∧ o.grid_level = L)

/-- The concrete configuration used throughout the spec's scenarios:
`{lower: 100, upper: 200, grids: 5, investment: 500}`. -/
def demoBot : GridBot := GridBot.init "g1" "BTCUSDT" 100 200 5 500 "demo"

/-- A closed round-trip BUY: bought at 95 for level 100 and already sold. -/
def soldOrder : Order :=
  { id := 1, type := Side.buy, price := 95, grid_level := 100,
    amount_usd := 100, amount_crypto := 20/19, fee := 1/10, sold := true }

/-- A running bot whose only order is the closed round-trip `soldOrder`. -/
def soldBot : GridBot := { demoBot with orders := [soldOrder], active := true }

/-- An open BUY at execution price 100. -/
def buy100 : Order :=
  { id := 1, type := Side.buy, price := 100, grid_level := 100,
    amount_usd := 100, amount_crypto := 1, fee := 1/10, sold := false }

/-- An open BUY at execution price 105. -/
def buy105 : Order :=
  { id := 2, type := Side.buy, price := 105, grid_level := 110,
    amount_usd := 100, amount_crypto := 20/21, fee := 1/10, sold := false }

/-- A running bot holding open buys at 100 and 105. -/
def twoBuyBot : GridBot := { demoBot with orders := [buy100, buy105], active := true }

/-! ## List helper lemmas -/

lemma any_iff_getElem {α : Type} (l : List α) (p : α → Bool) :
    l.any p = true ↔ ∃ (k : ℕ) (x : α), l[k]? = some x ∧ p x = true := by
  constructor
  · intro h
    obtain ⟨x, hx, hpx⟩ := List.any_eq_true.mp h
    obtain ⟨k, hk⟩ := List.mem_iff_getElem?.mp hx
    exact ⟨k, x, hk, hpx⟩
  · rintro ⟨k, x, hk, hpx⟩
    exact List.any_eq_true.mpr ⟨x, List.mem_iff_getElem?.mpr ⟨k, hk⟩, hpx⟩

lemma any_false_getElem {α : Type} {l : List α} {p : α → Bool} (h : l.any p = false)
    {k : ℕ} {x : α} (hk : l[k]? = some x) : p x = false := by
  by_contra hb
  have : l.any p = true :=
    (any_iff_getElem l p).mpr ⟨k, x, hk, by revert hb; cases p x <;> simp⟩
  rw [h] at this
  exact Bool.false_ne_true this

lemma concat_getElem_cases {α : Type} {l : List α} {a : α} {k : ℕ} {x : α}
    (h : (l ++ [a])[k]? = some x) :
    (k < l.length ∧ l[k]? = some x) ∨ (k = l.length ∧ x = a) := by
  have hk : k < l.length + 1 := by
    have := (List.getElem?_eq_some.mp h).1
    simpa using this
  rcases Nat.lt_succ_iff_lt_or_eq.mp hk with hlt | heq
  · left
    refine ⟨hlt, ?_⟩
    rwa [List.getElem?_append_left hlt] at h
  · right
    refine ⟨heq, ?_⟩
    subst heq
    rw [List.getElem?_concat_length] at h
    exact (Option.some_inj.mp h).symm

lemma concat_getElem_left {α : Type} {l : List α} {a : α} {k : ℕ} {x : α}
    (h : l[k]? = some x) : (l ++ [a])[k]? = some x := by
  have hk : k < l.length := (List.getElem?_eq_some.mp h).1
  rwa [List.getElem?_append_left hk]

lemma set_getElem_cases {α : Type} {l : List α} {j k : ℕ} {a x : α}
    (h : (l.set j a)[k]? = some x) :
    (k = j ∧ x = a) ∨ (l[k]? = some x) := by
  by_cases hkj : k = j
  · subst hkj
    have hk : k < l.length := by
      have := (List.getElem?_eq_some.mp h).1
      simpa using this
    rw [List.getElem?_set_self hk] at h
    exact Or.inl ⟨rfl, (Option.some_inj.mp h).symm⟩
  · right
    rwa [List.getElem?_set_ne (fun he => hkj he.symm)] at h

lemma set_getElem_forward {α : Type} {l : List α} {j k : ℕ} {a x : α}
    (h : l[k]? = some x) :
    (k = j ∧ (l.set j a)[k]? = some a) ∨ (k ≠ j ∧ (l.set j a)[k]? = some x) := by
  by_cases hkj : k = j
  · subst hkj
    have hk : k < l.length := (List.getElem?_eq_some.mp h).1
    exact Or.inl ⟨rfl, List.getElem?_set_self hk⟩
  · exact Or.inr ⟨hkj, by rwa [List.getElem?_set_ne (fun he => hkj he.symm)]⟩

/-! ## Characterization of the `_execute_sell` scan -/

lemma isOpenBuyBelow_def (level : ℚ) (o : Order) :
    isOpenBuyBelow level o ↔ (o.type = Side.buy ∧ o.price < level ∧ o.sold = false) :=
  Iff.rfl

lemma findBuyAux_spec (level : ℚ) :
    ∀ (l : List Order) (i0 : ℕ) (acc : Option (ℕ × Order)) (full : List Order),
      (∀ k : ℕ, full[i0 + k]? = l[k]?) →
      (acc = none → ∀ (k : ℕ) (x : Order), k < i0 → full[k]? = some x →
        ¬ isOpenBuyBelow level x) →
      (∀ (j : ℕ) (bo : Order), acc = some (j, bo) →
        j < i0 ∧ full[j]? = some bo ∧ isOpenBuyBelow level bo ∧
        ∀ (k : ℕ) (x : Order), k < i0 → full[k]? = some x → isOpenBuyBelow level x →
          bo.price ≤ x.price ∧ (x.price = bo.price → j ≤ k)) →
      (∀ (j : ℕ) (bo : Order), findBuyAux level acc i0 l = some (j, bo) →
        full[j]? = some bo ∧ isOpenBuyBelow level bo ∧
        ∀ (k : ℕ) (x : Order), full[k]? = some x → isOpenBuyBelow level x →
          bo.price ≤ x.price ∧ (x.price = bo.price → j ≤ k)) ∧
      (findBuyAux level acc i0 l = none →
        ∀ (k : ℕ) (x : Order), full[k]? = some x → ¬ isOpenBuyBelow level x) := by
  intro l
  induction l with
  | nil =>
    intro i0 acc full hfull haccN haccS
    have hbeyond : ∀ (k : ℕ), i0 ≤ k → full[k]? = none := by
      intro k hk
      have h1 := hfull (k - i0)
      rw [show i0 + (k - i0) = k from by omega] at h1
      simpa using h1
    constructor
    · intro j bo hres
      have hacc : acc = some (j, bo) := hres
      obtain ⟨hj, hfj, hP, hmin⟩ := haccS j bo hacc
      refine ⟨hfj, hP, ?_⟩
      intro k x hk hPx
      by_cases hki : k < i0
      · exact hmin k x hki hk hPx
      · have := hbeyond k (le_of_not_lt hki)
        rw [this] at hk
        exact absurd hk (by simp)
    · intro hres k x hk
      by_cases hki : k < i0
      · exact haccN hres k x hki hk
      · have := hbeyond k (le_of_not_lt hki)
        rw [this] at hk
        exact fun _ => absurd hk (by simp)
  | cons o rest ih =>
    intro i0 acc full hfull haccN haccS
    have hfull0 : full[i0]? = some o := by simpa using hfull 0
    have hfull' : ∀ (k : ℕ), full[(i0 + 1) + k]? = rest[k]? := by
      intro k
      have h1 := hfull (k + 1)
      rw [show i0 + (k + 1) = (i0 + 1) + k from by omega] at h1
      simpa using h1
    by_cases hP : o.type = Side.buy ∧ o.price < level ∧ o.sold = false
    · have hPo : isOpenBuyBelow level o := hP
      cases acc with
      | none =>
        have hstep : findBuyAux level none i0 (o :: rest)
            = findBuyAux level (some (i0, o)) (i0 + 1) rest := by
          simp [findBuyAux, hP]
        rw [hstep]
        apply ih (i0 + 1) (some (i0, o)) full hfull'
        · intro h
          exact absurd h (by simp)
        · intro j bo h
          rw [Option.some_inj, Prod.mk.injEq] at h
          obtain ⟨hj, hbo⟩ := h
          subst hj; subst hbo
          refine ⟨Nat.lt_succ_self i0, hfull0, hPo, ?_⟩
          intro k x hk hkx hPx
          rcases Nat.lt_succ_iff_lt_or_eq.mp hk with hki | hki
          · exact absurd hPx (haccN rfl k x hki hkx)
          · subst hki
            rw [hfull0] at hkx
            have hxo : x = o := Option.some_inj.mp hkx.symm
            subst hxo
            exact ⟨le_refl _, fun _ => le_refl _⟩
      | some p =>
        rcases p with ⟨j0, b0⟩
        obtain ⟨hj0, hfj0, hPb0, hmin0⟩ := haccS j0 b0 rfl
        by_cases hlt : o.price < b0.price
        · have hstep : findBuyAux level (some (j0, b0)) i0 (o :: rest)
              = findBuyAux level (some (i0, o)) (i0 + 1) rest := by
            simp [findBuyAux, hP, hlt]
          rw [hstep]
          apply ih (i0 + 1) (some (i0, o)) full hfull'
          · intro h
            exact absurd h (by simp)
          · intro j bo h
            rw [Option.some_inj, Prod.mk.injEq] at h
            obtain ⟨hj, hbo⟩ := h
            subst hj; subst hbo
            refine ⟨Nat.lt_succ_self i0, hfull0, hPo, ?_⟩
            intro k x hk hkx hPx
            rcases Nat.lt_succ_iff_lt_or_eq.mp hk with hki | hki
            · have hb0x := (hmin0 k x hki hkx hPx).1
              refine ⟨le_of_lt (lt_of_lt_of_le hlt hb0x), ?_⟩
              intro heq
              exact absurd (lt_of_le_of_lt hb0x (heq ▸ hlt)) (lt_irrefl _)
            · subst hki
              rw [hfull0] at hkx
              have hxo : x = o := Option.some_inj.mp hkx.symm
              subst hxo
              exact ⟨le_refl _, fun _ => le_refl _⟩
        · have hstep : findBuyAux level (some (j0, b0)) i0 (o :: rest)
              = findBuyAux level (some (j0, b0)) (i0 + 1) rest := by
            simp [findBuyAux, hP, hlt]
          rw [hstep]
          apply ih (i0 + 1) (some (j0, b0)) full hfull'
          · intro h
            exact absurd h (by simp)
          · intro j bo h
            rw [Option.some_inj, Prod.mk.injEq] at h
            obtain ⟨hj, hbo⟩ := h
            subst hj; subst hbo
            refine ⟨Nat.lt_succ_of_lt hj0, hfj0, hPb0, ?_⟩
            intro k x hk hkx hPx
            rcases Nat.lt_succ_iff_lt_or_eq.mp hk with hki | hki
            · exact hmin0 k x hki hkx hPx
            · subst hki
              rw [hfull0] at hkx
              have hxo : x = o := Option.some_inj.mp hkx.symm
              subst hxo
              exact ⟨le_of_not_lt hlt, fun _ => le_of_lt hj0⟩
    · have hstep : findBuyAux level acc i0 (o :: rest)
          = findBuyAux level acc (i0 + 1) rest := by
        simp [findBuyAux, hP]
      rw [hstep]
      apply ih (i0 + 1) acc full hfull'
      · intro h k x hk hkx
        rcases Nat.lt_succ_iff_lt_or_eq.mp hk with hki | hki
        · exact haccN h k x hki hkx
        · subst hki
          rw [hfull0] at hkx
          have hxo : x = o := Option.some_inj.mp hkx.symm
          subst hxo
          exact fun hPx => hP hPx
      · intro j bo h
        obtain ⟨hj, hfj, hPbo, hmin⟩ := haccS j bo h
        refine ⟨Nat.lt_succ_of_lt hj, hfj, hPbo, ?_⟩
        intro k x hk hkx hPx
        rcases Nat.lt_succ_iff_lt_or_eq.mp hk with hki | hki
        · exact hmin k x hki hkx hPx
        · subst hki
          rw [hfull0] at hkx
          have hxo : x = o := Option.some_inj.mp hkx.symm
          subst hxo
          exact absurd hPx hP

lemma findBuyOrder_some {orders : List Order} {level : ℚ} {j : ℕ} {bo : Order}
    (h : findBuyOrder orders level = some (j, bo)) :
    orders[j]? = some bo ∧ isOpenBuyBelow level bo ∧
    ∀ (k : ℕ) (x : Order), orders[k]? = some x → isOpenBuyBelow level x →
      bo.price ≤ x.price ∧ (x.price = bo.price → j ≤ k) := by
  have hspec := findBuyAux_spec level orders 0 none orders
    (by intro k; simp)
    (by intro _ k x hk; omega)
    (by intro j bo h; exact absurd h (by simp))
  exact hspec.1 j bo h

lemma findBuyOrder_none {orders : List Order} {level : ℚ}
    (h : findBuyOrder orders level = none) :
    ∀ (k : ℕ) (x : Order), orders[k]? = some x → ¬ isOpenBuyBelow level x := by
  have hspec := findBuyAux_spec level orders 0 none orders
    (by intro k; simp)
    (by intro _ k x hk; omega)
    (by intro j bo h; exact absurd h (by simp))
  exact hspec.2 h

/-! ## Equation and preservation lemmas for the engine operations -/

lemma execute_buy_fst (b : GridBot) (level p : ℚ) :
    (b.execute_buy level p).1 =
      { b with orders := b.orders ++ [mkBuyOrder b level p],
               trades := b.trades ++ [mkBuyTrade b p] } := rfl

lemma execute_sell_of_none {b : GridBot} {level : ℚ} (p : ℚ)
    (h : findBuyOrder b.orders level = none) :
    b.execute_sell level p = (b, none) := by
  unfold GridBot.execute_sell
  rw [h]

lemma execute_sell_of_some {b : GridBot} {level : ℚ} {i : ℕ} {bo : Order} (p : ℚ)
    (h : findBuyOrder b.orders level = some (i, bo)) :
    b.execute_sell level p =
      ({ b with
          orders := (b.orders.set i { bo with sold := true })
            ++ [mkSellOrder ((b.orders.set i { bo with sold := true }).length + 1) bo level p],
          trades := b.trades ++ [mkSellTrade bo p],
          profit := b.profit + sellProfit bo p },
       some (mkSellTrade bo p)) := by
  unfold GridBot.execute_sell
  rw [h]

lemma execute_buy_tolerance (b : GridBot) (level p : ℚ) :
    (b.execute_buy level p).1.tolerance = b.tolerance := rfl

lemma execute_sell_tolerance (b : GridBot) (level p : ℚ) :
    (b.execute_sell level p).1.tolerance = b.tolerance := by
  cases h : findBuyOrder b.orders level with
  | none => rw [execute_sell_of_none p h]
  | some q =>
    obtain ⟨i, bo⟩ := q
    rw [execute_sell_of_some p h]
    rfl

/-! ## Generic invariant propagation through a tick and a tick sequence -/

lemma foldl_tickStep_inv (Inv : GridBot → Prop) {cp : ℚ}
    (hbuy : ∀ (b : GridBot) (level : ℚ), cp ≤ level → b.has_buy_at_level level = false →
      Inv b → Inv (b.execute_buy level cp).1)
    (hsell : ∀ (b : GridBot) (level : ℚ), level ≤ cp → b.has_holding_below level = true →
      Inv b → Inv (b.execute_sell level cp).1) :
    ∀ (levels : List ℚ) (acc : GridBot × List Trade), Inv acc.1 →
      Inv (levels.foldl (tickStep cp) acc).1 := by
  intro levels
  induction levels with
  | nil => intro acc h; exact h
  | cons level rest ih =>
    intro acc h
    rw [List.foldl_cons]
    apply ih
    unfold tickStep
    by_cases h1 : cp ≤ level ∧ acc.1.has_buy_at_level level = false
    · rw [if_pos h1]
      exact hbuy acc.1 level h1.1 h1.2 h
    · rw [if_neg h1]
      by_cases h2 : level ≤ cp ∧ acc.1.has_holding_below level = true
      · rw [if_pos h2]
        exact hsell acc.1 level h2.1 h2.2 h
      · rw [if_neg h2]
        exact h

lemma check_and_execute_inv (Inv : GridBot → Prop) {cp : ℚ}
    (hbuy : ∀ (b : GridBot) (level : ℚ), cp ≤ level → b.has_buy_at_level level = false →
      Inv b → Inv (b.execute_buy level cp).1)
    (hsell : ∀ (b : GridBot) (level : ℚ), level ≤ cp → b.has_holding_below level = true →
      Inv b → Inv (b.execute_sell level cp).1)
    {b : GridBot} (h : Inv b) : Inv (b.check_and_execute cp).1 := by
  unfold GridBot.check_and_execute
  by_cases ha : b.active = false
  · rw [if_pos ha]
    exact h
  · rw [if_neg ha]
    exact foldl_tickStep_inv Inv hbuy hsell b.grid_levels (b, []) h

lemma runTicks_inv (Inv : GridBot → Prop)
    (hbuy : ∀ (cp : ℚ) (b : GridBot) (level : ℚ), cp ≤ level →
      b.has_buy_at_level level = false → Inv b → Inv (b.execute_buy level cp).1)
    (hsell : ∀ (cp : ℚ) (b : GridBot) (level : ℚ), level ≤ cp →
      b.has_holding_below level = true → Inv b → Inv (b.execute_sell level cp).1) :
    ∀ (ps : List ℚ) (b : GridBot), Inv b → Inv (runTicks b ps) := by
  intro ps
  induction ps with
  | nil => intro b h; exact h
  | cons p rest ih =>
    intro b h
    show Inv ((p :: rest).foldl (fun bot q => (bot.check_and_execute q).1) b)
    rw [List.foldl_cons]
    exact ih _ (check_and_execute_inv Inv (hbuy p) (hsell p) h)

/-! ## Field transfer through the sold-marking mutation -/

lemma set_sold_fields {l : List Order} {i k : ℕ} {bo x : Order}
    (hbo : l[i]? = some bo)
    (h : (l.set i { bo with sold := true })[k]? = some x) :
    ∃ y : Order, l[k]? = some y ∧ x.type = y.type ∧ x.price = y.price ∧
      x.grid_level = y.grid_level ∧ (y.sold = true → x.sold = true) := by
  rcases set_getElem_cases h with ⟨hke, hx⟩ | h2
  · subst hke
    subst hx
    exact ⟨bo, hbo, rfl, rfl, rfl, fun _ => rfl⟩
  · exact ⟨x, h2, rfl, rfl, rfl, fun hs => hs⟩

lemma set_sold_forward {l : List Order} {i k : ℕ} {bo y : Order}
    (hbo : l[i]? = some bo) (h : l[k]? = some y) :
    ∃ x : Order, (l.set i { bo with sold := true })[k]? = some x ∧
      x.type = y.type ∧ x.price = y.price ∧ x.grid_level = y.grid_level ∧
      (y.sold = true → x.sold = true) := by
  rcases @set_getElem_forward Order l i k { bo with sold := true } y h with ⟨hke, hset⟩ | ⟨hne, hset⟩
  · subst hke
    have hyb : y = bo := by
      rw [h] at hbo
      exact Option.some_inj.mp hbo
    subst hyb
    exact ⟨{ y with sold := true }, hset, rfl, rfl, rfl, fun _ => rfl⟩
  · exact ⟨y, hset, rfl, rfl, rfl, fun hs => hs⟩

/-! ## Preservation of the buy-guard invariant (claim C1, amended) -/

lemma has_buy_false_far {b : GridBot} {level : ℚ}
    (hguard : b.has_buy_at_level level = false) :
    ∀ (k : ℕ) (o : Order), b.orders[k]? = some o → o.type = Side.buy →
      b.tolerance ≤ |o.price - level| := by
  intro k o hk hb
  have hdec := any_false_getElem hguard hk
  have hnot : ¬ (o.type = Side.buy ∧ |o.price - level| < b.tolerance) :=
    of_decide_eq_false hdec
  by_contra hlt
  exact hnot ⟨hb, not_le.mp hlt⟩

lemma noRebuy_append_buy {tol : ℚ} {l : List Order} {nb : Order}
    (hnb : nb.type = Side.buy)
    (hfar : ∀ (k : ℕ) (o : Order), l[k]? = some o → o.type = Side.buy →
      tol ≤ |o.price - nb.grid_level|)
    (hinv : noRebuy tol l) : noRebuy tol (l ++ [nb]) := by
  intro a c oa oc hac ha hc hba hbc
  rcases concat_getElem_cases hc with ⟨hcl, hcold⟩ | ⟨hclen, hcnew⟩
  · have hal : a < l.length := lt_trans hac hcl
    rw [List.getElem?_append_left hal] at ha
    exact hinv a c oa oc hac ha hcold hba hbc
  · subst hcnew
    have hal : a < l.length := by omega
    rw [List.getElem?_append_left hal] at ha
    exact hfar a oa ha hba

lemma noRebuy_append_sell {tol : ℚ} {l : List Order} {s : Order}
    (hs : s.type = Side.sell) (hinv : noRebuy tol l) : noRebuy tol (l ++ [s]) := by
  intro a c oa oc hac ha hc hba hbc
  rcases concat_getElem_cases hc with ⟨hcl, hcold⟩ | ⟨hclen, hcnew⟩
  · have hal : a < l.length := lt_trans hac hcl
    rw [List.getElem?_append_left hal] at ha
    exact hinv a c oa oc hac ha hcold hba hbc
  · subst hcnew
    rw [hs] at hbc
    exact absurd hbc (by simp)

lemma noRebuy_set_sold {tol : ℚ} {l : List Order} {i : ℕ} {bo : Order}
    (hbo : l[i]? = some bo) (hinv : noRebuy tol l) :
    noRebuy tol (l.set i { bo with sold := true }) := by
  intro a c oa oc hac ha hc hba hbc
  obtain ⟨ya, hya, hat, hap, _, _⟩ := set_sold_fields hbo ha
  obtain ⟨yc, hyc, hct, _, hcg, _⟩ := set_sold_fields hbo hc
  have hya' : ya.type = Side.buy := by rw [← hat]; exact hba
  have hyc' : yc.type = Side.buy := by rw [← hct]; exact hbc
  have := hinv a c ya yc hac hya hyc hya' hyc'
  rw [hap, hcg]
  exact this

lemma noRebuy_execute_buy {b : GridBot} {level cp : ℚ}
    (hguard : b.has_buy_at_level level = false)
    (hinv : noRebuy b.tolerance b.orders) :
    noRebuy (b.execute_buy level cp).1.tolerance (b.execute_buy level cp).1.orders := by
  show noRebuy b.tolerance (b.orders ++ [mkBuyOrder b level cp])
  apply noRebuy_append_buy rfl ?_ hinv
  intro k o hk hb
  exact has_buy_false_far hguard k o hk hb

lemma noRebuy_execute_sell {b : GridBot} {level cp : ℚ}
    (hinv : noRebuy b.tolerance b.orders) :
    noRebuy (b.execute_sell level cp).1.tolerance (b.execute_sell level cp).1.orders := by
  cases hf : findBuyOrder b.orders level with
  | none =>
    rw [execute_sell_of_none cp hf]
    exact hinv
  | some q =>
    obtain ⟨i, bo⟩ := q
    obtain ⟨hbo, _, _⟩ := findBuyOrder_some hf
    rw [execute_sell_of_some cp hf]
    show noRebuy b.tolerance ((b.orders.set i { bo with sold := true })
      ++ [mkSellOrder ((b.orders.set i { bo with sold := true }).length + 1) bo level cp])
    exact noRebuy_append_sell rfl (noRebuy_set_sold hbo hinv)

lemma noRebuy_runTicks {b : GridBot} (ps : List ℚ)
    (hinv : noRebuy b.tolerance b.orders) :
    noRebuy (runTicks b ps).tolerance (runTicks b ps).orders := by
  exact runTicks_inv (fun b' => noRebuy b'.tolerance b'.orders)
    (fun cp b' level _ hguard h => noRebuy_execute_buy hguard h)
    (fun cp b' level _ _ h => noRebuy_execute_sell h)
    ps b hinv

/-! ## Sold flags are never cleared (claim C5) -/

lemma findBuyOrder_not_sold {orders : List Order} {level : ℚ} {j : ℕ} {bo : Order}
    (h : findBuyOrder orders level = some (j, bo)) :
    orders[j]? = some bo ∧ bo.sold = false := by
  obtain ⟨hj, hP, _⟩ := findBuyOrder_some h
  exact ⟨hj, hP.2.2⟩

lemma sold_stable_runTicks {b : GridBot} {i : ℕ} {o : Order} (ps : List ℚ)
    (hi : b.orders[i]? = some o) (hs : o.sold = true) :
    ∃ o' : Order, (runTicks b ps).orders[i]? = some o' ∧ o'.sold = true := by
  refine runTicks_inv
    (fun b' => ∃ o' : Order, b'.orders[i]? = some o' ∧ o'.sold = true)
    ?_ ?_ ps b ⟨o, hi, hs⟩
  · rintro cp b' level _ _ ⟨o', ho', hs'⟩
    exact ⟨o', concat_getElem_left ho', hs'⟩
  · rintro cp b' level _ _ ⟨o', ho', hs'⟩
    cases hf : findBuyOrder b'.orders level with
    | none =>
      rw [execute_sell_of_none cp hf]
      exact ⟨o', ho', hs'⟩
    | some q =>
      obtain ⟨j, bo⟩ := q
      obtain ⟨hbo, _⟩ := findBuyOrder_not_sold hf
      rw [execute_sell_of_some cp hf]
      obtain ⟨x, hx, _, _, _, hximp⟩ := set_sold_forward hbo ho'
      exact ⟨x, concat_getElem_left hx, hximp hs'⟩

/-! ## The occupancy check and level counts (claim C10) -/

lemma any_concat_of_any {α : Type} {l : List α} {a : α} {p : α → Bool}
    (h : l.any p = true) : (l ++ [a]).any p = true := by
  obtain ⟨k, x, hk, hpx⟩ := (any_iff_getElem l p).mp h
  exact (any_iff_getElem _ p).mpr ⟨k, x, concat_getElem_left hk, hpx⟩

lemma countP_set_congr {α : Type} (p : α → Bool) :
    ∀ (l : List α) (i : ℕ) (a : α), (∀ b : α, l[i]? = some b → p a = p b) →
      (l.set i a).countP p = l.countP p := by
  intro l
  induction l with
  | nil => intro i a _; rfl
  | cons x xs ih =>
    intro i a h
    cases i with
    | zero =>
      have hpa : p a = p x := h x (by simp)
      simp [List.countP_cons, hpa]
    | succ n =>
      have hrec := ih n a (fun b hb => h b (by simpa using hb))
      simp only [List.set_cons_succ, List.countP_cons, hrec]

lemma has_buy_of_witness {b : GridBot} {L : ℚ} {k : ℕ} {o : Order}
    (hk : b.orders[k]? = some o) (ht : o.type = Side.buy)
    (hnear : |o.price - L| < b.tolerance) : b.has_buy_at_level L = true :=
  (any_iff_getElem _ _).mpr ⟨k, o, hk, decide_eq_true ⟨ht, hnear⟩⟩

lemma occupied_blocks_buys {b : GridBot} {L : ℚ} (cp : ℚ)
    (hhb : b.has_buy_at_level L = true) :
    (b.check_and_execute cp).1.has_buy_at_level L = true ∧
    (b.check_and_execute cp).1.orders.countP (buyAtLevel L)
      = b.orders.countP (buyAtLevel L) := by
  refine check_and_execute_inv
    (fun b' => b'.has_buy_at_level L = true ∧
      b'.orders.countP (buyAtLevel L) = b.orders.countP (buyAtLevel L))
    ?_ ?_ ⟨hhb, rfl⟩
  · rintro b' level _ hguard ⟨hhb', hcnt'⟩
    constructor
    · show (b'.orders ++ [mkBuyOrder b' level cp]).any
        (fun o => decide (o.type = Side.buy ∧ |o.price - L| < b'.tolerance)) = true
      exact any_concat_of_any hhb'
    · show (b'.orders ++ [mkBuyOrder b' level cp]).countP (buyAtLevel L)
        = b.orders.countP (buyAtLevel L)
      have hnew : buyAtLevel L (mkBuyOrder b' level cp) = false := by
        by_cases hL : level = L
        · subst hL
          rw [hguard] at hhb'
          exact absurd hhb' (by simp)
        · simp [buyAtLevel, mkBuyOrder, hL]
      rw [List.countP_append]
      simp [List.countP_cons, hnew, hcnt']
  · rintro b' level _ _ ⟨hhb', hcnt'⟩
    cases hf : findBuyOrder b'.orders level with
    | none =>
      rw [execute_sell_of_none cp hf]
      exact ⟨hhb', hcnt'⟩
    | some q =>
      obtain ⟨j, bo⟩ := q
      obtain ⟨hbo, _⟩ := findBuyOrder_not_sold hf
      rw [execute_sell_of_some cp hf]
      have hset : (b'.orders.set j { bo with sold := true }).countP (buyAtLevel L)
          = b'.orders.countP (buyAtLevel L) := by
        apply countP_set_congr
        intro y hy
        rw [hbo] at hy
        have hyb : y = bo := Option.some_inj.mp hy.symm
        subst hyb
        rfl
      constructor
      · show ((b'.orders.set j { bo with sold := true })
            ++ [mkSellOrder ((b'.orders.set j { bo with sold := true }).length + 1) bo level cp]).any
            (fun o => decide (o.type = Side.buy ∧ |o.price - L| < b'.tolerance)) = true
        apply any_concat_of_any
        obtain ⟨k, x, hk, hpx⟩ := (any_iff_getElem _ _).mp hhb'
        obtain ⟨x', hx', ht, hp, _, _⟩ := set_sold_forward hbo hk
        refine (any_iff_getElem _ _).mpr ⟨k, x', hx', ?_⟩
        show decide (x'.type = Side.buy ∧ |x'.price - L| < b'.tolerance) = true
        rw [ht, hp]
        exact hpx
      · show ((b'.orders.set j { bo with sold := true })
            ++ [mkSellOrder ((b'.orders.set j { bo with sold := true }).length + 1) bo level cp]).countP
            (buyAtLevel L) = b.orders.countP (buyAtLevel L)
        rw [List.countP_append, hset]
        have hsell0 : ∀ n : ℕ, buyAtLevel L (mkSellOrder n bo level cp) = false := by
          intro n
          simp [buyAtLevel, mkSellOrder]
        simp [List.countP_cons, hsell0, hcnt']

/-! ## Rounding bounds and strict monotonicity of the grid levels (claim C6) -/

lemma roundHalfEven_bounds (x : ℚ) :
    x - 1/2 ≤ (roundHalfEven x : ℚ) ∧ (roundHalfEven x : ℚ) ≤ x + 1/2 := by
  have h1 : (⌊x⌋ : ℚ) ≤ x := Int.floor_le x
  have h2 : x < (⌊x⌋ : ℚ) + 1 := Int.lt_floor_add_one x
  unfold roundHalfEven
  split_ifs with ha hb hc
  · constructor <;> push_cast <;> linarith
  · constructor <;> push_cast <;> linarith
  · have hr : x - (⌊x⌋ : ℚ) = 1/2 := le_antisymm (le_of_not_lt hb) (le_of_not_lt ha)
    constructor <;> push_cast <;> linarith
  · have hr : x - (⌊x⌋ : ℚ) = 1/2 := le_antisymm (le_of_not_lt hb) (le_of_not_lt ha)
    constructor <;> push_cast <;> linarith

lemma roundHalfEven_lt {x y : ℚ} (h : x + 1 < y) : roundHalfEven x < roundHalfEven y := by
  have hx := (roundHalfEven_bounds x).2
  have hy := (roundHalfEven_bounds y).1
  have hq : (roundHalfEven x : ℚ) < (roundHalfEven y : ℚ) := by linarith
  exact_mod_cast hq

lemma round2_lt {x y : ℚ} (h : 1/100 < y - x) : round2 x < round2 y := by
  unfold round2
  have h100 : x * 100 + 1 < y * 100 := by linarith
  have hq : (roundHalfEven (x * 100) : ℚ) < (roundHalfEven (y * 100) : ℚ) := by
    exact_mod_cast roundHalfEven_lt h100
  linarith

lemma calculate_grids_getElem (lo up : ℚ) (g : ℕ) (i : ℕ) (hi : i < g + 1) :
    (calculate_grids lo up g)[i]? = some (round2 (lo + i * ((up - lo) / g))) := by
  simp only [calculate_grids, List.getElem?_map]
  rw [List.getElem?_range hi]
  rfl

lemma calculate_grids_chain (lo up : ℚ) (g : ℕ) (hsp : 1/100 < (up - lo) / g) :
    List.Chain' (· < ·) (calculate_grids lo up g) := by
  simp only [calculate_grids]
  rw [List.chain'_map]
  refine (List.chain'_range_succ _ g).mpr ?_
  intro m _
  apply round2_lt
  have hcast : ((m + 1 : ℕ) : ℚ) = (m : ℚ) + 1 := by push_cast; ring
  rw [hcast]
  have key : (lo + ((m : ℚ) + 1) * ((up - lo) / g)) - (lo + (m : ℚ) * ((up - lo) / g))
      = (up - lo) / g := by ring
  rw [key]
  exact hsp

/-- `noRebuy` holds vacuously of an empty order book. -/
lemma noRebuy_nil (tol : ℚ) : noRebuy tol [] := by
  intro i j oi oj hij hi hj
  simp at hi

/-! ## Claim theorems -/

/-- C1 (amended): the double-buy protection the code actually guarantees is
the guard of `_has_buy_at_level`: along any tick sequence, every BUY
position's execution price is at distance at least the tolerance from the
nominal grid level of every BUY position created after it (and this invariant,
vacuous at creation, is maintained from a fresh bot onward).  The literal
claim — no two simultaneously open BUY positions within tolerance of the same
nominal level — is refuted by `claim_C1_counterexample`. -/
theorem claim_C1_buy_guard_invariant :
    (∀ (b : GridBot) (ps : List ℚ), noRebuy b.tolerance b.orders →
      noRebuy (runTicks b ps).tolerance (runTicks b ps).orders) ∧
    (∀ (bid sym : String) (lo up inv : ℚ) (g : ℕ) (mo : String) (ps : List ℚ),
      noRebuy (runTicks ((GridBot.init bid sym lo up g inv mo).start.1) ps).tolerance
        (runTicks ((GridBot.init bid sym lo up g inv mo).start.1) ps).orders) := by
  constructor
  · intro b ps hinv
    exact noRebuy_runTicks ps hinv
  · intro bid sym lo up inv g mo ps
    exact noRebuy_runTicks ps (noRebuy_nil _)

theorem claim_C1_witness :
    noRebuy (runTicks demoBot.start.1 [95, 115]).tolerance
      (runTicks demoBot.start.1 [95, 115]).orders ∧
    noRebuy (runTicks ((GridBot.init "w1" "ETHUSDT" 10 20 4 100 "demo").start.1) [12]).tolerance
      (runTicks ((GridBot.init "w1" "ETHUSDT" 10 20 4 100 "demo").start.1) [12]).orders :=
  ⟨claim_C1_buy_guard_invariant.1 demoBot.start.1 [95, 115] (noRebuy_nil _),
   claim_C1_buy_guard_invariant.2 "w1" "ETHUSDT" 10 20 100 4 "demo" [12]⟩

/-- C1 counterexample: on the `{100, 200, 5, 500}` bot a single tick at price
95 buys at levels 100 and 120, both with execution price 95, so the bot holds
two open (unsold) BUY positions whose execution prices are both within the
tolerance 10 of the same nominal grid level 100 — the claim as stated is
false. -/
theorem claim_C1_counterexample :
    (runTicks demoBot.start.1 [95]).tolerance = 10 ∧
    (100 : ℚ) ∈ (runTicks demoBot.start.1 [95]).grid_levels ∧
    ((runTicks demoBot.start.1 [95]).orders[0]?).map
      (fun o => (o.type, o.sold, decide (|o.price - 100| < 10))) =
        some (Side.buy, false, true) ∧
    ((runTicks demoBot.start.1 [95]).orders[1]?).map
      (fun o => (o.type, o.sold, decide (|o.price - 100| < 10))) =
        some (Side.buy, false, true) := by
  decide

/-- C2: on a freshly started `{100, 200, 5, 500}` bot a single tick at price
95 executes a buy at every one of the 6 grid levels, all with execution
price 95, and returns exactly 6 BUY trade events. -/
theorem claim_C2_tick95_buys_all_levels :
    ((demoBot.start.1.check_and_execute 95).2).map
        (fun ts => ts.map (fun t => (t.type, t.price)))
      = some (List.replicate 6 (Side.buy, (95 : ℚ))) ∧
    (demoBot.start.1.check_and_execute 95).1.orders.map
        (fun o => (o.type, o.grid_level, o.price))
      = [(Side.buy, 100, 95), (Side.buy, 120, 95), (Side.buy, 140, 95),
         (Side.buy, 160, 95), (Side.buy, 180, 95), (Side.buy, 200, 95)] := by
  decide

/-- C7: the config `{lower: 100, upper: 200, grids: 5, investment: 500}`
produces exactly the levels `[100, 120, 140, 160, 180, 200]` and
`amount_per_grid = 100`. -/
theorem claim_C7_concrete_grid :
    calculate_grids 100 200 5 = [100, 120, 140, 160, 180, 200] ∧
    demoBot.amount_per_grid = 100 := by
  decide

/-- C8 (amended): a tick on an inactive bot returns Python `None` — no trade
event list at all, rather than an empty list — and leaves the bot entirely
unchanged (orders, trades and profit included). -/
theorem claim_C8_inactive_noop :
    ∀ (b : GridBot) (cp : ℚ), b.active = false → b.check_and_execute cp = (b, none) := by
  intro b cp h
  unfold GridBot.check_and_execute
  rw [if_pos h]

theorem claim_C8_witness :
    demoBot.check_and_execute 77 = (demoBot, none) :=
  claim_C8_inactive_noop demoBot 77 rfl

/-- C8 counterexample: the claim says a stopped bot's tick returns an *empty
sequence* of trade events; the code returns `None` (`app.py` line 320), which
is a different value from the empty list (`jsonify` renders `null`, and
iterating it raises).  The state is indeed unchanged. -/
theorem claim_C8_counterexample :
    (demoBot.check_and_execute 95).2 = none ∧
    (demoBot.check_and_execute 95).1 = demoBot ∧
    (none : Option (List Trade)) ≠ some [] := by
  refine ⟨rfl, rfl, ?_⟩
  simp

/-- C9: `start` on an already-active bot is idempotent — the bot (hence its
orders, trades and profit ledger) is unchanged, `active` stays `true`, and
the returned status dict `{'status': 'started', 'bot_id': ...}` is the same
value every call returns, so it equals the first call's. -/
theorem claim_C9_start_idempotent :
    ∀ b : GridBot, b.active = true →
      b.start = (b, "started", b.bot_id) ∧
      b.start.1.active = true ∧
      b.start.1.orders = b.orders ∧
      b.start.1.trades = b.trades ∧
      b.start.1.profit = b.profit ∧
      b.start.1.start.2 = b.start.2 := by
  intro b h
  have hb : { b with active := true } = b := by
    obtain ⟨bid, sym, lo, up, g, inv, mo, act, gl, am, ords, trs, pf⟩ := b
    have h' : act = true := h
    subst h'
    rfl
  refine ⟨?_, rfl, rfl, rfl, rfl, rfl⟩
  show ({ b with active := true }, "started", b.bot_id) = (b, "started", b.bot_id)
  rw [hb]

theorem claim_C9_witness :
    demoBot.start.1.start = (demoBot.start.1, "started", demoBot.start.1.bot_id) ∧
    demoBot.start.1.start.1.active = true ∧
    demoBot.start.1.start.1.orders = demoBot.start.1.orders ∧
    demoBot.start.1.start.1.trades = demoBot.start.1.trades ∧
    demoBot.start.1.start.1.profit = demoBot.start.1.profit ∧
    demoBot.start.1.start.1.start.2 = demoBot.start.1.start.2 :=
  claim_C9_start_idempotent demoBot.start.1 rfl

/-- C6 (amended): for every valid config, `calculate_grids` returns exactly
`gridCount + 1` levels, `levels[i] = round2(lower + i*spacing)` (uniform
spacing up to the 2-decimal rounding), with `levels[0] = round2(lower)`,
`levels[gridCount] = round2(upper)`, and `amount_per_grid = investment /
gridCount`; the levels are strictly increasing whenever the grid spacing
`(upper - lower) / gridCount` exceeds 0.01 — for smaller spacing adjacent
levels can collide after rounding (`claim_C6_counterexample`), so only the
unconditional strict-increase part of the original claim is false. -/
theorem claim_C6_grid_levels (lo up inv : ℚ) (g : ℕ)
    (h1 : lo < up) (h2 : 1 ≤ g) (h3 : 0 < inv) :
    (calculate_grids lo up g).length = g + 1 ∧
    (calculate_grids lo up g)[0]? = some (round2 lo) ∧
    (calculate_grids lo up g)[g]? = some (round2 up) ∧
    (∀ i : ℕ, i < g + 1 →
      (calculate_grids lo up g)[i]? = some (round2 (lo + (i : ℚ) * ((up - lo) / g)))) ∧
    (∀ bid sym mo : String,
      (GridBot.init bid sym lo up g inv mo).amount_per_grid = inv / g) ∧
    (1/100 < (up - lo) / g → List.Chain' (· < ·) (calculate_grids lo up g)) := by
  have hg0 : (g : ℚ) ≠ 0 := Nat.cast_ne_zero.mpr (by omega)
  refine ⟨?_, ?_, ?_, ?_, fun bid sym mo => rfl, fun hsp => calculate_grids_chain lo up g hsp⟩
  · simp [calculate_grids]
  · have h0 := calculate_grids_getElem lo up g 0 (by omega)
    rw [h0]
    have : lo + ((0 : ℕ) : ℚ) * ((up - lo) / g) = lo := by norm_num
    rw [this]
  · have hg := calculate_grids_getElem lo up g g (by omega)
    rw [hg]
    have : lo + (g : ℚ) * ((up - lo) / g) = up := by
      field_simp
    rw [this]
  · intro i hi
    exact calculate_grids_getElem lo up g i hi

theorem claim_C6_witness :
    (calculate_grids 100 200 5).length = 5 + 1 ∧
    (calculate_grids 100 200 5)[0]? = some (round2 100) ∧
    (calculate_grids 100 200 5)[5]? = some (round2 200) ∧
    (∀ i : ℕ, i < 5 + 1 →
      (calculate_grids 100 200 5)[i]? =
        some (round2 (100 + (i : ℚ) * ((200 - 100) / ((5 : ℕ) : ℚ))))) ∧
    (∀ bid sym mo : String,
      (GridBot.init bid sym 100 200 5 500 mo).amount_per_grid = 500 / ((5 : ℕ) : ℚ)) ∧
    (1/100 < (200 - 100) / ((5 : ℕ) : ℚ) →
      List.Chain' (· < ·) (calculate_grids 100 200 5)) :=
  claim_C6_grid_levels 100 200 500 5 (by norm_num) (by norm_num) (by norm_num)

/-- C6 counterexample: the config `{lower: 100, upper: 100.01, grids: 5}` is
valid (`lower < upper`, `grids ≥ 1`, positive investment) but its grid
spacing 0.002 collapses under 2-decimal rounding: levels 0 and 1 are both
100, so the levels are not strictly increasing. -/
theorem claim_C6_counterexample :
    (100 : ℚ) < 10001/100 ∧ 1 ≤ (5 : ℕ) ∧ (0 : ℚ) < 500 ∧
    (calculate_grids 100 (10001/100) 5)[0]? = some 100 ∧
    (calculate_grids 100 (10001/100) 5)[1]? = some 100 ∧
    ¬ List.Chain' (· < ·) (calculate_grids 100 (10001/100) 5) := by
  refine ⟨by norm_num, by norm_num, by norm_num, by decide, by decide, ?_⟩
  intro hchain
  have h01 := List.chain'_iff_get.mp hchain 0 (by decide)
  exact absurd h01 (by decide)

/-- C5: once a BUY position's `sold` flag is set, it stays set through any
further tick sequence, and `_execute_sell`'s scan (`findBuyOrder`) never
selects that position again as the matched buy of a later sell (the scan
requires `not order.get('sold')`). -/
theorem claim_C5_sold_never_rematched :
    ∀ (b : GridBot) (ps : List ℚ) (i : ℕ) (o : Order),
      b.orders[i]? = some o → o.sold = true →
      ∃ o' : Order, (runTicks b ps).orders[i]? = some o' ∧ o'.sold = true ∧
        ∀ (level : ℚ) (j : ℕ) (bo : Order),
          findBuyOrder (runTicks b ps).orders level = some (j, bo) → j ≠ i := by
  intro b ps i o hi hs
  obtain ⟨o', ho', hs'⟩ := sold_stable_runTicks ps hi hs
  refine ⟨o', ho', hs', ?_⟩
  intro level j bo hf hji
  subst hji
  obtain ⟨hj, hbos⟩ := findBuyOrder_not_sold hf
  rw [ho'] at hj
  have hbo' : bo = o' := Option.some_inj.mp hj.symm
  subst hbo'
  rw [hbos] at hs'
  exact absurd hs' (by simp)

theorem claim_C5_witness :
    ∃ o' : Order, (runTicks soldBot [150]).orders[0]? = some o' ∧ o'.sold = true ∧
      ∀ (level : ℚ) (j : ℕ) (bo : Order),
        findBuyOrder (runTicks soldBot [150]).orders level = some (j, bo) → j ≠ 0 :=
  claim_C5_sold_never_rematched soldBot [150] 0 soldOrder (by decide) (by decide)

/-- C10: `_has_buy_at_level` ignores the `sold` flag, so a completed
round-trip (a BUY with `sold = true` within tolerance of level `L`)
permanently blocks re-buying near `L`: a tick at any `currentPrice ≤ L` adds
no new BUY order with nominal level `L` (the count of such orders is
unchanged). -/
theorem claim_C10_sold_blocks_rebuy :
    ∀ (b : GridBot) (L cp : ℚ),
      (∃ (k : ℕ) (o : Order), b.orders[k]? = some o ∧ o.type = Side.buy ∧
        o.sold = true ∧ |o.price - L| < b.tolerance) →
      (∀ (k : ℕ) (o : Order), b.orders[k]? = some o → o.type = Side.buy →
        |o.price - L| < b.tolerance → o.sold = true) →
      cp ≤ L →
      (b.check_and_execute cp).1.orders.countP (buyAtLevel L)
        = b.orders.countP (buyAtLevel L) := by
  rintro b L cp ⟨k, o, hk, ht, hsold, hnear⟩ _ _
  exact (occupied_blocks_buys cp (has_buy_of_witness hk ht hnear)).2

theorem claim_C10_witness :
    (soldBot.check_and_execute 95).1.orders.countP (buyAtLevel 100)
      = soldBot.orders.countP (buyAtLevel 100) :=
  claim_C10_sold_blocks_rebuy soldBot 100 95
    ⟨0, soldOrder, by decide, by decide, by decide, by decide⟩
    (by
      intro k o hk ht hnear
      match k, hk with
      | 0, hk =>
        have : soldOrder = o := Option.some_inj.mp hk
        rw [← this]
        rfl
      | (k + 1), hk => simp [soldBot, demoBot] at hk)
    (by decide)

/-- C4: whenever `_execute_sell` executes (returns a trade), the matched buy
is, among all unsold BUY positions with execution price strictly below the
level, the one with the lowest price, ties broken by earliest position in
the order list; the appended SELL order references it via `buy_order_id`. -/
theorem claim_C4_cheapest_open_buy :
    ∀ (b : GridBot) (level p : ℚ) (b' : GridBot) (t : Trade),
      b.execute_sell level p = (b', some t) →
      ∃ (i : ℕ) (bo : Order),
        findBuyOrder b.orders level = some (i, bo) ∧
        b.orders[i]? = some bo ∧
        bo.type = Side.buy ∧ bo.price < level ∧ bo.sold = false ∧
        (∀ (k : ℕ) (o : Order), b.orders[k]? = some o →
          o.type = Side.buy → o.price < level → o.sold = false →
          bo.price ≤ o.price ∧ (o.price = bo.price → i ≤ k)) ∧
        b'.orders.getLast? = some (mkSellOrder (b.orders.length + 1) bo level p) ∧
        t = mkSellTrade bo p := by
  intro b level p b' t h
  cases hf : findBuyOrder b.orders level with
  | none =>
    rw [execute_sell_of_none p hf] at h
    exact absurd (congrArg Prod.snd h) (by simp)
  | some q =>
    obtain ⟨i, bo⟩ := q
    obtain ⟨horder, hP, hmin⟩ := findBuyOrder_some hf
    rw [execute_sell_of_some p hf, Prod.mk.injEq] at h
    obtain ⟨hb', ht⟩ := h
    have ht' : t = mkSellTrade bo p := (Option.some_inj.mp ht).symm
    refine ⟨i, bo, rfl, horder, hP.1, hP.2.1, hP.2.2, ?_, ?_, ht'⟩
    · intro k o hk hto hpo hso
      exact hmin k o hk ⟨hto, hpo, hso⟩
    · rw [← hb']
      show ((b.orders.set i { bo with sold := true })
          ++ [mkSellOrder ((b.orders.set i { bo with sold := true }).length + 1) bo level p]).getLast?
        = some (mkSellOrder (b.orders.length + 1) bo level p)
      rw [List.getLast?_concat, List.length_set]

theorem claim_C4_witness :
    (∃ (i : ℕ) (bo : Order),
      findBuyOrder twoBuyBot.orders 110 = some (i, bo) ∧
      twoBuyBot.orders[i]? = some bo ∧
      bo.type = Side.buy ∧ bo.price < 110 ∧ bo.sold = false ∧
      (∀ (k : ℕ) (o : Order), twoBuyBot.orders[k]? = some o →
        o.type = Side.buy → o.price < 110 → o.sold = false →
        bo.price ≤ o.price ∧ (o.price = bo.price → i ≤ k)) ∧
      ((twoBuyBot.execute_sell 110 110).1).orders.getLast?
        = some (mkSellOrder (twoBuyBot.orders.length + 1) bo 110 110) ∧
      mkSellTrade buy100 110 = mkSellTrade bo 110) ∧
    findBuyOrder twoBuyBot.orders 110 = some (0, buy100) :=
  ⟨claim_C4_cheapest_open_buy twoBuyBot 110 110 (twoBuyBot.execute_sell 110 110).1
      (mkSellTrade buy100 110) (by decide),
   by decide⟩

/-- C3: every executed sell records profit
`amountQuoteSell - amountQuoteBuy - feeSell - feeBuy` exactly, with
`amountQuoteSell = matchedBuy.amount_crypto * sellPrice` and each leg's fee
`0.001` of that leg's quote value; a buy followed by a sell at the same
execution price yields `profit = -(feeBuy + feeSell) ≤ 0`, never positive. -/
theorem claim_C3_profit_formula :
    (∀ (b : GridBot) (level p : ℚ) (b' : GridBot) (t : Trade),
      b.execute_sell level p = (b', some t) →
      ∃ (i : ℕ) (bo : Order), findBuyOrder b.orders level = some (i, bo) ∧
        t.value = bo.amount_crypto * p ∧
        t.fee = bo.amount_crypto * p * (1/1000) ∧
        t.profit = some (bo.amount_crypto * p - bo.amount_usd
          - bo.amount_crypto * p * (1/1000) - bo.fee)) ∧
    (∀ (b : GridBot) (level p : ℚ),
      ((b.execute_buy level p).2).fee = ((b.execute_buy level p).2).value * (1/1000) ∧
      ((b.execute_buy level p).2).value = b.amount_per_grid) ∧
    (∀ (b : GridBot) (level level' p : ℚ),
      b.orders = [] → p ≠ 0 → p < level' → 0 ≤ b.amount_per_grid →
      ∃ t2 : Trade,
        (((b.execute_buy level p).1).execute_sell level' p).2 = some t2 ∧
        t2.profit = some (-(((b.execute_buy level p).2).fee + t2.fee)) ∧
        ∀ q : ℚ, t2.profit = some q → q ≤ 0) := by
  refine ⟨?_, ?_, ?_⟩
  · intro b level p b' t h
    cases hf : findBuyOrder b.orders level with
    | none =>
      rw [execute_sell_of_none p hf] at h
      exact absurd (congrArg Prod.snd h) (by simp)
    | some q =>
      obtain ⟨i, bo⟩ := q
      rw [execute_sell_of_some p hf, Prod.mk.injEq] at h
      obtain ⟨hb', ht⟩ := h
      have ht' : t = mkSellTrade bo p := (Option.some_inj.mp ht).symm
      subst ht'
      exact ⟨i, bo, rfl, rfl, rfl, rfl⟩
  · intro b level p
    exact ⟨rfl, rfl⟩
  · intro b level level' p h0 hp hlt hA
    have hord : ((b.execute_buy level p).1).orders = [mkBuyOrder b level p] := by
      show b.orders ++ [mkBuyOrder b level p] = [mkBuyOrder b level p]
      rw [h0]
      rfl
    have hfind : findBuyOrder ((b.execute_buy level p).1).orders level'
        = some (0, mkBuyOrder b level p) := by
      rw [hord]
      show findBuyAux level' none 0 [mkBuyOrder b level p] = some (0, mkBuyOrder b level p)
      simp only [findBuyAux]
      rw [if_pos ⟨rfl, hlt, rfl⟩]
    refine ⟨mkSellTrade (mkBuyOrder b level p) p, ?_, ?_, ?_⟩
    · rw [execute_sell_of_some p hfind]
    · show some (sellProfit (mkBuyOrder b level p) p)
        = some (-(b.amount_per_grid * (1/1000)
          + b.amount_per_grid / p * p * (1/1000)))
      apply congrArg
      show b.amount_per_grid / p * p - b.amount_per_grid
          - b.amount_per_grid / p * p * (1/1000) - b.amount_per_grid * (1/1000)
        = -(b.amount_per_grid * (1/1000) + b.amount_per_grid / p * p * (1/1000))
      rw [div_mul_cancel₀ _ hp]
      ring
    · intro q hq
      have hq' : q = sellProfit (mkBuyOrder b level p) p :=
        (Option.some_inj.mp hq).symm
      rw [hq']
      show b.amount_per_grid / p * p - b.amount_per_grid
          - b.amount_per_grid / p * p * (1/1000) - b.amount_per_grid * (1/1000) ≤ 0
      rw [div_mul_cancel₀ _ hp]
      linarith

theorem claim_C3_witness :
    (∃ (i : ℕ) (bo : Order),
      findBuyOrder twoBuyBot.orders 108 = some (i, bo) ∧
      (mkSellTrade buy100 107).value = bo.amount_crypto * 107 ∧
      (mkSellTrade buy100 107).fee = bo.amount_crypto * 107 * (1/1000) ∧
      (mkSellTrade buy100 107).profit = some (bo.amount_crypto * 107 - bo.amount_usd
        - bo.amount_crypto * 107 * (1/1000) - bo.fee)) ∧
    (∃ t2 : Trade,
      (((demoBot.execute_buy 100 100).1).execute_sell 120 100).2 = some t2 ∧
      t2.profit = some (-(((demoBot.execute_buy 100 100).2).fee + t2.fee)) ∧
      ∀ q : ℚ, t2.profit = some q → q ≤ 0) :=
  ⟨claim_C3_profit_formula.1 twoBuyBot 108 107 (twoBuyBot.execute_sell 108 107).1
      (mkSellTrade buy100 107) (by decide),
   claim_C3_profit_formula.2.2 demoBot 100 120 100 rfl (by norm_num) (by norm_num) (by decide)⟩
